import Mathlib

/-!
Verification of the header-normalization and row-reconciliation logic of
`app.py` (seah-query-filtering): a shallow embedding of
`preprocess_multicolumn_header`, `generate_df_summary`, the export block
building `final_export_df` (lines 211-214), and the exec-result dispatch
(lines 199-240), together with theorems settling the specification claims.
-/

set_option autoImplicit false

namespace SeahQF

/-! ### Header normalization (`preprocess_multicolumn_header`, app.py 55-85)

A column of the two-level header is a pair `(group, item)` of the
`str(...)`-converted labels `str(col[0])`, `str(col[1])`.  The Python local
`current_group` starts as `None` and is either `None` or a string, modelled
as `Option String`. -/

/-- Python truthiness of `final_group` (`None` or `str`): `None` and the
empty string are falsy. -/
def pyTruthy : Option String → Bool
  | none => false
  | some s => s != ""

/-- Executable contiguous-substring test on character lists, modelling the
Python `in` operator on strings. -/
def containsSub (needle : List Char) : List Char → Bool
  | [] => needle.isEmpty
  | c :: rest => needle.isPrefixOf (c :: rest) || containsSub needle rest

theorem containsSub_correct (needle hay : List Char) :
    containsSub needle hay = true ↔ needle <:+: hay := by
  induction hay with
  | nil => simp [containsSub, List.isEmpty_iff]
  | cons c rest ih =>
    simp [containsSub, List.infix_cons_iff, List.isPrefixOf_iff_prefix, ih]

/-- The code's absence test, `"Unnamed" in label or label == "nan"`
(app.py lines 66 and 72, the same expression for group and item):
`"Unnamed"` occurring anywhere as a substring, or the label being exactly
`"nan"`. -/
def isAbsentLabel (s : String) : Bool :=
  containsSub "Unnamed".toList s.toList || s == "nan"

/-- Lines 66-70: on an absent group label `final_group` is the running
`current_group`; on a present one both become the label.  In both branches
the updated `current_group` coincides with `final_group`. -/
def finalGroupOf (cg : Option String) (g : String) : Option String :=
  if isAbsentLabel g then cg else some g

/-- Lines 72-75: an absent item label is replaced by `""`. -/
def finalItemOf (i : String) : String :=
  if isAbsentLabel i then "" else i

/-- Lines 77-82: `f"{final_group}_{final_item}"` when both are truthy,
else `final_group` when truthy, else `final_item`. -/
def composeName (fg : Option String) (fi : String) : String :=
  if pyTruthy fg && fi != "" then fg.getD "" ++ "_" ++ fi
  else if pyTruthy fg then fg.getD ""
  else fi

/-- One iteration of the loop body (lines 62-82): given the incoming
`current_group` and the column's `(group, item)` pair, produce the updated
`current_group` and the appended flat name. -/
def preprocessStep (cg : Option String) (col : String × String) : Option String × String :=
  let fg := finalGroupOf cg col.1
  (fg, composeName fg (finalItemOf col.2))

/-- The loop over `df.columns`, threading `current_group`. -/
def preprocessAux (cg : Option String) : List (String × String) → List String
  | [] => []
  | col :: rest => (preprocessStep cg col).2 :: preprocessAux (preprocessStep cg col).1 rest

/-- Function `preprocess_multicolumn_header` (app.py 55-85) restricted to its
algorithmic content: the list of flat column names computed from the
`(str(col[0]), str(col[1]))` pairs, with `current_group` starting at
`None`. -/
def preprocess_multicolumn_header (cols : List (String × String)) : List String :=
  preprocessAux none cols

/-- The value of `current_group` after scanning a prefix of columns. -/
def stateAfter (cg : Option String) : List (String × String) → Option String
  | [] => cg
  | col :: rest => stateAfter (preprocessStep cg col).1 rest

/-- The most recent group label classified as present (not absent) in a
list of columns, scanning left to right. -/
def mostRecentGroup (pre : List (String × String)) : Option String :=
  ((pre.map Prod.fst).filter (fun s => ! isAbsentLabel s)).getLast?

theorem preprocessAux_append (cg : Option String) (l₁ l₂ : List (String × String)) :
    preprocessAux cg (l₁ ++ l₂) = preprocessAux cg l₁ ++ preprocessAux (stateAfter cg l₁) l₂ := by
  induction l₁ generalizing cg with
  | nil => rfl
  | cons c rest ih => simp [preprocessAux, stateAfter, ih]

theorem length_preprocessAux (cg : Option String) (l : List (String × String)) :
    (preprocessAux cg l).length = l.length := by
  induction l generalizing cg with
  | nil => rfl
  | cons c rest ih => simp [preprocessAux, ih]

theorem length_preprocess (cols : List (String × String)) :
    (preprocess_multicolumn_header cols).length = cols.length :=
  length_preprocessAux none cols

theorem getLast?_cons_or {α : Type} (a : α) (l : List α) :
    (a :: l).getLast? = l.getLast?.or (some a) := by
  cases l with
  | nil => rfl
  | cons b l' =>
    rw [List.getLast?_cons_cons]
    cases h : (b :: l').getLast? with
    | none =>
      have hs := (List.getLast?_isSome (l := b :: l')).mpr (by simp)
      rw [h] at hs
      simp at hs
    | some x => rfl

theorem stateAfter_eq_mostRecentGroup (cg : Option String) (pre : List (String × String)) :
    stateAfter cg pre = (mostRecentGroup pre).or cg := by
  induction pre generalizing cg with
  | nil => rfl
  | cons c rest ih =>
    by_cases h : isAbsentLabel c.1
    · have h1 : stateAfter cg (c :: rest) = stateAfter cg rest := by
        simp [stateAfter, preprocessStep, finalGroupOf, h]
      have h2 : mostRecentGroup (c :: rest) = mostRecentGroup rest := by
        simp [mostRecentGroup, h]
      rw [h1, h2, ih]
    · have h1 : stateAfter cg (c :: rest) = stateAfter (some c.1) rest := by
        simp [stateAfter, preprocessStep, finalGroupOf, h]
      have h2 : mostRecentGroup (c :: rest) = (mostRecentGroup rest).or (some c.1) := by
        simp only [mostRecentGroup, List.map_cons, List.filter_cons, h, Bool.not_false,
          if_pos]
        exact getLast?_cons_or _ _
      rw [h1, h2, ih, Option.or_assoc, Option.or_some]

/-! ### Row reconciliation / export (app.py 211-214)

`df_raw` is read with `header=None`, so it is the raw table: an ordered
list of rows with the default `RangeIndex` `0, 1, ...` as labels.  A row is
kept abstract.  The block

    header_rows = df_raw.iloc[[0, 1]]
    target_indices = result_df.index + 2
    data_rows = df_raw.loc[target_indices]
    final_export_df = pd.concat([header_rows, data_rows])

positionally selects rows 0 and 1 (`iloc` raises `IndexError` if absent),
then label-selects each `p + 2` (`loc` raises `KeyError` if any label is
missing — on a `RangeIndex` of length `n` the labels are exactly
`0, ..., n-1`), and concatenates.  Failure is modelled as `none`. -/

/-- Model of `df.loc[labels]` on a table whose labels are its positions
(`RangeIndex`): the row at each label, in the given order; `none`
(`KeyError`) as soon as a label is absent. -/
def locRows {α : Type} (raw : List α) : List Nat → Option (List α)
  | [] => some []
  | i :: rest =>
    match raw.get? i, locRows raw rest with
    | some r, some rs => some (r :: rs)
    | _, _ => none

/-- The export block of app.py lines 211-214: `some` of the assembled
table (rows 0 and 1 of `df_raw`, then `df_raw` row `p + 2` for each `p` in
`result_df.index`, in order), or `none` when a lookup is out of range. -/
def final_export_df {α : Type} (df_raw : List α) (result_index : List Nat) : Option (List α) :=
  match df_raw.get? 0, df_raw.get? 1 with
  | some h0, some h1 =>
    match locRows df_raw (result_index.map (fun p => p + 2)) with
    | some data_rows => some (h0 :: h1 :: data_rows)
    | none => none
  | _, _ => none

/-! ### Exec-result dispatch (app.py 199-240)

After `exec(generated_code, local_vars)` the flow branches on
`result_df = local_vars.get('result_df')`.  The possible exec outcomes are
abstracted: the fragment raised; it left `result_df` as `None`; it bound
`result_df` to a DataFrame (represented by its retained index, the list of
analysis-row positions, since the download path only uses `result_df.index`);
or it bound `result_df` to some other value. -/

inductive ExecOutcome : Type
  | raises : ExecOutcome
  | resultNone : ExecOutcome
  | resultDf (index : List Nat) : ExecOutcome
  | resultOther : ExecOutcome
deriving DecidableEq

/-- The observable outcome of one interaction: a download offered with the
export table (`st.download_button`, line 220), the "no matches" warning
(line 227), the visualization-success message (line 232), the
"cannot display" info message (line 235), or the execution-error report
with the generated fragment shown (lines 238-240). -/
inductive Outcome (α : Type) : Type
  | successDownload (tbl : List α) : Outcome α
  | noMatches : Outcome α
  | vizSuccess : Outcome α
  | cannotDisplay : Outcome α
  | execError : Outcome α
deriving DecidableEq

/-- The dispatch of app.py 199-240: a raise anywhere in the `try` block —
including inside the export block — lands in the `except` handler
(`execError`); a DataFrame result is checked for emptiness before the
export block runs; `None` is reported as visualization success; any other
binding as "cannot display". -/
def dispatch {α : Type} (df_raw : List α) (ex : ExecOutcome) : Outcome α :=
  match ex with
  | .raises => .execError
  | .resultDf index =>
    if index.isEmpty then .noMatches
    else
      match final_export_df df_raw index with
      | some tbl => .successDownload tbl
      | none => .execError
  | .resultNone => .vizSuccess
  | .resultOther => .cannotDisplay

/-! ### Helper lemmas about `locRows` -/

theorem locRows_length {α : Type} (raw : List α) :
    ∀ (l : List Nat) (data : List α),
      locRows raw l = some data → data.length = l.length := by
  intro l
  induction l with
  | nil =>
    intro data h
    simp only [locRows, Option.some_inj] at h
    simp [← h]
  | cons a l ih =>
    intro data h
    simp only [locRows] at h
    cases ha : raw.get? a with
    | none => rw [ha] at h; simp at h
    | some b =>
      rw [ha] at h
      cases hl : locRows raw l with
      | none => rw [hl] at h; simp at h
      | some bs =>
        rw [hl] at h
        simp only [Option.some_inj] at h
        simp [← h, ih bs hl]

theorem locRows_some {α : Type} (raw : List α) :
    ∀ (l : List Nat), (∀ p ∈ l, p < raw.length) →
      ∃ data, locRows raw l = some data ∧
        ∀ i p, l.get? i = some p → data.get? i = raw.get? p := by
  intro l
  induction l with
  | nil =>
    intro _
    exact ⟨[], rfl, fun i p h => by simp at h⟩
  | cons a l ih =>
    intro hrange
    have ha : a < raw.length := hrange a (by simp)
    cases hb : raw.get? a with
    | none =>
      rw [List.get?_eq_none] at hb
      omega
    | some b =>
      obtain ⟨data, hdata, hget⟩ := ih (fun p hp => hrange p (by simp [hp]))
      have hb' : raw[a]? = some b := by rw [← List.get?_eq_getElem?]; exact hb
      refine ⟨b :: data, ?_, ?_⟩
      · simp [locRows, hb', hdata]
      · intro i p hip
        cases i with
        | zero =>
          simp only [List.get?_cons_zero, Option.some_inj] at hip
          subst hip
          simp only [List.get?_cons_zero]
          exact hb.symm
        | succ j =>
          simp only [List.get?_cons_succ] at hip ⊢
          exact hget j p hip

theorem locRows_none {α : Type} (raw : List α) :
    ∀ (l : List Nat) (p : Nat), p ∈ l → raw.get? p = none →
      locRows raw l = none := by
  intro l
  induction l with
  | nil => intro p hp; simp at hp
  | cons a l ih =>
    intro p hp hnone
    rcases List.mem_cons.mp hp with rfl | hmem
    · have h' : raw[p]? = none := by rw [← List.get?_eq_getElem?]; exact hnone
      simp [locRows, h']
    · cases ha : raw.get? a with
      | none =>
        have ha' : raw[a]? = none := by rw [← List.get?_eq_getElem?]; exact ha
        simp [locRows, ha']
      | some b =>
        have ha' : raw[a]? = some b := by rw [← List.get?_eq_getElem?]; exact ha
        simp [locRows, ha', ih p hmem hnone]

theorem locRows_shift1 {α : Type} (x : α) (xs : List α) :
    ∀ (l : List Nat), locRows (x :: xs) (l.map Nat.succ) = locRows xs l := by
  intro l
  induction l with
  | nil => rfl
  | cons a l ih =>
    simp only [List.map_cons, locRows, ih]
    rfl

theorem locRows_range_self {α : Type} : ∀ (xs : List α), locRows xs (List.range xs.length) = some xs := by
  intro xs
  induction xs with
  | nil => rfl
  | cons x xs ih =>
    rw [List.length_cons, List.range_succ_eq_map]
    simp only [locRows, locRows_shift1, ih, List.get?_cons_zero]

theorem locRows_map_add_two {α : Type} (r0 r1 : α) (rest : List α) (l : List Nat) :
    locRows (r0 :: r1 :: rest) (l.map (fun p => p + 2)) = locRows rest l := by
  have hmap : l.map (fun p => p + 2) = (l.map Nat.succ).map Nat.succ := by
    rw [List.map_map]
    rfl
  rw [hmap, locRows_shift1, locRows_shift1]

theorem final_export_df_length {α : Type} (raw : List α) (index : List Nat) (tbl : List α)
    (h : final_export_df raw index = some tbl) : tbl.length = 2 + index.length := by
  unfold final_export_df at h
  cases h0 : raw.get? 0 with
  | none => rw [h0] at h; simp at h
  | some r0 =>
    rw [h0] at h
    cases h1 : raw.get? 1 with
    | none => rw [h1] at h; simp at h
    | some r1 =>
      rw [h1] at h
      cases hl : locRows raw (index.map (fun p => p + 2)) with
      | none => rw [hl] at h; simp at h
      | some data =>
        rw [hl] at h
        simp only [Option.some_inj] at h
        have := locRows_length raw _ data hl
        rw [List.length_map] at this
        simp [← h, List.length_cons, this]
        omega

/-! ### Model of `generate_df_summary` (app.py 87-104)

A dataframe is modelled as its ordered list of named columns; a column is
either an `object` (string) column, whose cells may be null (`NaN`), or a
numeric column.  `df[col]` in pandas selects **every** column whose name is
`col`: with a unique match it yields a Series; with several it yields a
DataFrame, and the subsequent `.dtype` access raises `AttributeError`.
Raising is modelled with `Except.error`. -/

inductive ColData : Type
  | strCol (vals : List (Option String)) : ColData
  | numCol (vals : List Int) : ColData
deriving DecidableEq

structure PandasDF : Type where
  cols : List (String × ColData)
deriving DecidableEq

/-- Model of `Series.unique()`: distinct values in first-occurrence order. -/
def uniqueVals : List String → List String
  | [] => []
  | v :: rest => v :: uniqueVals (rest.filter (fun w => w != v))
termination_by l => l.length
decreasing_by
  simp only [List.length_cons]
  exact Nat.lt_succ_of_le (List.length_filter_le _ _)

/-- Rendering of `Series.min()` / `Series.max()`: `NaN` prints as `nan`
when the column is empty. -/
def numStr : Option Int → String
  | none => "nan"
  | some v => toString v

/-- The body of the loop of `generate_df_summary` for one uniquely-named
column (app.py 93-103). -/
def summaryLine (col : String) (c : ColData) : String :=
  match c with
  | .strCol vals =>
    let sample_str := String.intercalate ", " ((uniqueVals (vals.filterMap id)).take 5)
    "- Column: '" ++ col ++ "' (Type: String, Samples: [" ++ sample_str ++ ", ...])"
  | .numCol vals =>
    "- Column: '" ++ col ++ "' (Type: Number, Range: " ++ numStr vals.min? ++ " ~ " ++
      numStr vals.max? ++ ")"

/-- Model of `df[col]` (app.py line 93): all columns named `col`; a Series only
when the match is unique, otherwise the later `.dtype` raises. -/
def getColumn (df : PandasDF) (col : String) : Except String ColData :=
  match df.cols.filter (fun c => c.1 == col) with
  | [single] => Except.ok single.2
  | [] => Except.error ("KeyError: '" ++ col ++ "'")
  | _ => Except.error "AttributeError: 'DataFrame' object has no attribute 'dtype'"

/-- Function `generate_df_summary` (app.py 87-104): one line per entry of
`df.columns`, joined with newlines; an exception while accessing a column
propagates. -/
def generate_df_summary (df : PandasDF) : Except String String := do
  let lines ← (df.cols.map Prod.fst).mapM (fun col => do
    let c ← getColumn df col
    pure (summaryLine col c))
  pure (String.intercalate "\n" lines)

/-! ## The claims -/

/-- C1: for every raw table with at least 2 rows and every selection `S`
of analysis-row positions with `p + 2 < rowCount raw` for all `p ∈ S`, the
export step returns exactly `2 + |S|` rows, whose rows 0 and 1 equal raw
rows 0 and 1, and whose row `2 + i` equals raw row `S[i] + 2` for every
`i`, preserving the order of `S`. -/
theorem claim_C1 {α : Type} (raw : List α) (sel : List Nat)
    (h2 : 2 ≤ raw.length) (hsel : ∀ p ∈ sel, p + 2 < raw.length) :
    ∃ t, final_export_df raw sel = some t ∧ t.length = 2 + sel.length ∧
      t.get? 0 = raw.get? 0 ∧ t.get? 1 = raw.get? 1 ∧
      ∀ i p, sel.get? i = some p → t.get? (2 + i) = raw.get? (p + 2) := by
  cases h0 : raw.get? 0 with
  | none => rw [List.get?_eq_none] at h0; omega
  | some r0 =>
    cases h1 : raw.get? 1 with
    | none => rw [List.get?_eq_none] at h1; omega
    | some r1 =>
      have hrange : ∀ q ∈ sel.map (fun p => p + 2), q < raw.length := by
        intro q hq
        obtain ⟨p', hp', rfl⟩ := List.mem_map.mp hq
        exact hsel p' hp'
      obtain ⟨data, hdata, hget⟩ := locRows_some raw (sel.map (fun p => p + 2)) hrange
      have hdlen : data.length = sel.length := by
        have := locRows_length raw _ data hdata
        rwa [List.length_map] at this
      refine ⟨r0 :: r1 :: data, ?_, ?_, ?_, ?_, ?_⟩
      · unfold final_export_df
        rw [h0, h1, hdata]
      · simp [List.length_cons, hdlen]
        omega
      · rfl
      · rfl
      · intro i p hip
        have hmap : (sel.map (fun p => p + 2)).get? i = some (p + 2) := by
          rw [List.get?_map, hip]
          rfl
        have h3 := hget i (p + 2) hmap
        have h4 : (r0 :: r1 :: data).get? (2 + i) = data.get? i := by
          rw [Nat.add_comm]
          rfl
        rw [h4, h3]

/-- C1 witness: the theorem applied to the concrete raw table
`[10, 20, 30, 40, 50]` and the selection `[2, 0]`. -/
theorem claim_C1_witness :
    (2 ≤ ([10, 20, 30, 40, 50] : List Nat).length ∧
      ∀ p ∈ [2, 0], p + 2 < ([10, 20, 30, 40, 50] : List Nat).length) ∧
    ∃ t, final_export_df ([10, 20, 30, 40, 50] : List Nat) [2, 0] = some t ∧
      t.length = 2 + ([2, 0] : List Nat).length ∧
      t.get? 0 = ([10, 20, 30, 40, 50] : List Nat).get? 0 ∧
      t.get? 1 = ([10, 20, 30, 40, 50] : List Nat).get? 1 ∧
      ∀ i p, ([2, 0] : List Nat).get? i = some p →
        t.get? (2 + i) = ([10, 20, 30, 40, 50] : List Nat).get? (p + 2) :=
  ⟨⟨by decide, by decide⟩, claim_C1 [10, 20, 30, 40, 50] [2, 0] (by decide) (by decide)⟩

/-- C2: on groups `["A", absent, absent, "B", absent]` with items
`["x","y","z","w","v"]` the flat names are
`["A_x","A_y","A_z","B_w","B_v"]`; and in general a column whose group
label is absent gets its name composed from the most recent present group
label scanning left to right (the forward fill). -/
theorem claim_C2 :
    preprocess_multicolumn_header
      [("A", "x"), ("Unnamed: 1_level_0", "y"), ("Unnamed: 2_level_0", "z"),
        ("B", "w"), ("Unnamed: 4_level_0", "v")]
      = ["A_x", "A_y", "A_z", "B_w", "B_v"] ∧
    ∀ (pre : List (String × String)) (g i : String) (post : List (String × String)),
      isAbsentLabel g = true →
      (preprocess_multicolumn_header (pre ++ (g, i) :: post)).get? pre.length
        = some (composeName (mostRecentGroup pre) (finalItemOf i)) := by
  constructor
  · rfl
  · intro pre g i post hg
    have hlen : (preprocessAux none pre).length = pre.length := length_preprocessAux none pre
    unfold preprocess_multicolumn_header
    rw [preprocessAux_append, List.get?_append_right (by rw [hlen]), hlen, Nat.sub_self]
    have hst : stateAfter none pre = mostRecentGroup pre := by
      rw [stateAfter_eq_mostRecentGroup, Option.or_none]
    simp [preprocessAux, preprocessStep, finalGroupOf, hg, hst]

/-- C2 witness: the forward-fill statement applied to the concrete prefix
`[("A","x")]` and the absent group `"Unnamed: 0_level_0"`. -/
theorem claim_C2_witness :
    isAbsentLabel "Unnamed: 0_level_0" = true ∧
    (preprocess_multicolumn_header
        ([("A", "x")] ++ ("Unnamed: 0_level_0", "y") :: [])).get? 1
      = some (composeName (mostRecentGroup [("A", "x")]) (finalItemOf "y")) :=
  ⟨by decide, claim_C2.2 [("A", "x")] "Unnamed: 0_level_0" "y" [] (by decide)⟩

/-- C3 counterexample: the claim says an empty-string group label is
treated as absent and does not become the new forward-fill group.  In the
code the absence test is only `"Unnamed" in label or label == "nan"`, so
`""` is treated as a present group: it becomes the new `current_group`,
and the following absent-group column composes with `""` instead of `"A"`.
Had `""` been handled like the absent placeholder, the two runs below
would agree; they do not (`["A_x","y","z"]` versus `["A_x","A_y","A_z"]`). -/
theorem claim_C3_counterexample :
    preprocess_multicolumn_header [("A", "x"), ("", "y"), ("Unnamed: 2_level_0", "z")]
      = ["A_x", "y", "z"] ∧
    preprocess_multicolumn_header
        [("A", "x"), ("Unnamed: 1_level_0", "y"), ("Unnamed: 2_level_0", "z")]
      = ["A_x", "A_y", "A_z"] := by
  exact ⟨by decide, by decide⟩

/-- C3 amended: a label is classified as absent exactly when its string
form contains `"Unnamed"` or equals `"nan"`.  The literal empty string is
not absent: an empty-string group label becomes the new forward-fill
group, while an empty-string item label is still suppressed — but by the
non-emptiness test of the composition step, not by the absence
classifier. -/
theorem claim_C3_amended :
    isAbsentLabel "" = false ∧
    isAbsentLabel "nan" = true ∧
    (∀ s : String, "Unnamed".toList <:+: s.toList → isAbsentLabel s = true) ∧
    (∀ (cg : Option String) (i : String), (preprocessStep cg ("", i)).1 = some "") ∧
    (∀ (cg : Option String) (g : String),
      (preprocessStep cg (g, "")).2 =
        if pyTruthy (finalGroupOf cg g) then (finalGroupOf cg g).getD "" else "") := by
  refine ⟨by decide, by decide, ?_, ?_, ?_⟩
  · intro s h
    unfold isAbsentLabel
    rw [Bool.or_eq_true]
    exact Or.inl ((containsSub_correct _ _).mpr h)
  · intro cg i
    simp [preprocessStep, finalGroupOf, show isAbsentLabel "" = false from by decide]
  · intro cg g
    simp [preprocessStep, composeName, finalItemOf,
      show isAbsentLabel "" = false from by decide]

/-- C3 amended witness: the absence classifier applied to a concrete
label containing `"Unnamed"`. -/
theorem claim_C3_amended_witness :
    ("Unnamed".toList <:+: "XUnnamedY".toList) ∧ isAbsentLabel "XUnnamedY" = true :=
  ⟨by decide, claim_C3_amended.2.2.1 "XUnnamedY" (by decide)⟩

/-- C4: reconciling the full selection `[0, ..., rowCount raw - 3]` in
original order reproduces the raw table exactly. -/
theorem claim_C4 {α : Type} (raw : List α) (h2 : 2 ≤ raw.length) :
    final_export_df raw (List.range (raw.length - 2)) = some raw := by
  cases raw with
  | nil => simp at h2
  | cons r0 raw' =>
    cases raw' with
    | nil => simp at h2
    | cons r1 rest =>
      have hl : (r0 :: r1 :: rest).length - 2 = rest.length := by
        simp only [List.length_cons]
        omega
      rw [hl]
      unfold final_export_df
      rw [locRows_map_add_two, locRows_range_self]
      rfl

/-- C4 witness: the theorem applied to the concrete raw table
`[10, 20, 30, 40]`. -/
theorem claim_C4_witness :
    2 ≤ ([10, 20, 30, 40] : List Nat).length ∧
    final_export_df ([10, 20, 30, 40] : List Nat)
        (List.range (([10, 20, 30, 40] : List Nat).length - 2))
      = some [10, 20, 30, 40] :=
  ⟨by decide, claim_C4 [10, 20, 30, 40] (by decide)⟩

/-- Whether an outcome offers a download artifact (only the
`st.download_button` branch does). -/
def offersDownload {α : Type} : Outcome α → Bool
  | .successDownload _ => true
  | _ => false

/-- C5: a selection containing a position `p` with `p + 2 ≥ rowCount raw`
makes the export lookup fail (`KeyError` from `.loc`), and as the export
block sits inside the `try`, the failure surfaces through the `except`
handler as a reported error — never as a truncated, clipped or
wrapped-around table. -/
theorem claim_C5 {α : Type} (raw : List α) (sel : List Nat) (p : Nat)
    (hp : p ∈ sel) (hout : raw.length ≤ p + 2) :
    final_export_df raw sel = none ∧
      dispatch raw (ExecOutcome.resultDf sel) = Outcome.execError := by
  have hnone : raw.get? (p + 2) = none := List.get?_eq_none.mpr hout
  have hloc : locRows raw (sel.map (fun q => q + 2)) = none :=
    locRows_none raw _ (p + 2) (List.mem_map_of_mem _ hp) hnone
  have hexp : final_export_df raw sel = none := by
    unfold final_export_df
    cases h0 : raw.get? 0 with
    | none => rfl
    | some r0 =>
      cases h1 : raw.get? 1 with
      | none => rfl
      | some r1 => rw [hloc]
  refine ⟨hexp, ?_⟩
  have hne : sel.isEmpty = false := by
    cases sel with
    | nil => simp at hp
    | cons a l => rfl
  simp [dispatch, hne, hexp]

/-- C5 witness: the theorem applied to the 3-row raw table `[10, 20, 30]`
and the out-of-range selection `[5]`. -/
theorem claim_C5_witness :
    ((5 : Nat) ∈ [5] ∧ ([10, 20, 30] : List Nat).length ≤ 5 + 2) ∧
    final_export_df ([10, 20, 30] : List Nat) [5] = none ∧
      dispatch ([10, 20, 30] : List Nat) (ExecOutcome.resultDf [5]) = Outcome.execError :=
  ⟨⟨by decide, by decide⟩, claim_C5 [10, 20, 30] [5] 5 (by decide) (by decide)⟩

/-- C6: an empty filtered result is reported as the distinct "no matches"
state, and a download is only ever offered with an export table of at
least 3 rows (the 2 header rows plus at least one data row), so a 2-row
header-only file is never offered. -/
theorem claim_C6 {α : Type} (raw : List α) :
    dispatch raw (ExecOutcome.resultDf []) = Outcome.noMatches ∧
    ∀ (ex : ExecOutcome) (t : List α),
      dispatch raw ex = Outcome.successDownload t → 3 ≤ t.length := by
  constructor
  · rfl
  · intro ex t h
    cases ex with
    | raises => simp [dispatch] at h
    | resultNone => simp [dispatch] at h
    | resultOther => simp [dispatch] at h
    | resultDf index =>
      by_cases he : index.isEmpty
      · simp [dispatch, he] at h
      · cases hexp : final_export_df raw index with
        | none => simp [dispatch, he, hexp] at h
        | some tbl =>
          have ht : tbl = t := by simp [dispatch, he, hexp] at h; exact h
          have hlen := final_export_df_length raw index tbl hexp
          have hnil : index ≠ [] := by
            intro hcon
            rw [hcon] at he
            exact he rfl
          have : 1 ≤ index.length := List.length_pos.mpr hnil
          subst ht
          omega

/-- C6 witness: the theorem applied to the raw table `[10, 20, 30]`, with
the successful dispatch on selection `[0]` as the concrete download. -/
theorem claim_C6_witness :
    dispatch ([10, 20, 30] : List Nat) (ExecOutcome.resultDf []) = Outcome.noMatches ∧
    3 ≤ ([10, 20, 30] : List Nat).length :=
  ⟨(claim_C6 [10, 20, 30]).1,
    (claim_C6 [10, 20, 30]).2 (ExecOutcome.resultDf [0]) [10, 20, 30] (by decide)⟩

/-- C7 counterexample: the claim says that when the fragment runs but
produces no usable result binding, the outcome is reported as an
execution error.  In the code a binding that is neither `None` nor a
DataFrame lands in the final `else` (line 235), which shows a neutral
`st.info` "cannot display" message — not the `st.error` execution-error
report of the `except` handler. -/
theorem claim_C7_counterexample :
    dispatch ([99] : List Nat) ExecOutcome.resultOther = Outcome.cannotDisplay ∧
    ((Outcome.cannotDisplay : Outcome Nat) == Outcome.execError) = false ∧
    offersDownload (dispatch ([99] : List Nat) ExecOutcome.resultOther) = false := by
  exact ⟨rfl, by decide, rfl⟩

/-- C7 amended: when the generated fragment fails to run, the outcome is
the execution-error report (whose handler shows the offending fragment)
and no download is offered.  When the fragment runs but binds the result
to a value that is neither `None` nor a data table, the flow shows a
neutral "cannot display" notice — not an error — and likewise offers no
download; a `None` binding is reported as visualization success.  In none
of these cases is a download offered. -/
theorem claim_C7_amended {α : Type} (raw : List α) :
    dispatch raw ExecOutcome.raises = Outcome.execError ∧
    dispatch raw ExecOutcome.resultNone = Outcome.vizSuccess ∧
    dispatch raw ExecOutcome.resultOther = Outcome.cannotDisplay ∧
    offersDownload (dispatch raw ExecOutcome.raises) = false ∧
    offersDownload (dispatch raw ExecOutcome.resultNone) = false ∧
    offersDownload (dispatch raw ExecOutcome.resultOther) = false :=
  ⟨rfl, rfl, rfl, rfl, rfl, rfl⟩

/-- C8 counterexample: the claim says a column whose group and item are
both absent yields the empty string regardless of the surrounding
columns.  With a preceding present group `"A"`, the fully-absent second
column emits the forward-filled `"A"`, not `""`. -/
theorem claim_C8_counterexample :
    preprocess_multicolumn_header [("A", "x"), ("Unnamed: 1_level_0", "Unnamed: 1_level_1")]
      = ["A_x", "A"] ∧
    (((preprocess_multicolumn_header
        [("A", "x"), ("Unnamed: 1_level_0", "Unnamed: 1_level_1")]).get? 1)
      == some "") = false := by
  exact ⟨by decide, by decide⟩

/-- C8 amended: a column whose group and item labels are both absent
emits the forward-filled current group when one is in effect (and the
empty string when none is, or when the filled group is itself empty), and
the function is total — it emits exactly one name per column and never
fails. -/
theorem claim_C8_amended :
    (∀ (cg : Option String) (g i : String),
      isAbsentLabel g = true → isAbsentLabel i = true →
        preprocessStep cg (g, i) = (cg, cg.getD "")) ∧
    (∀ cols : List (String × String),
      (preprocess_multicolumn_header cols).length = cols.length) := by
  constructor
  · intro cg g i hg hi
    simp only [preprocessStep, finalGroupOf, finalItemOf, composeName, hg, hi, if_true]
    cases cg with
    | none => rfl
    | some s =>
      by_cases hs : s = ""
      · simp [pyTruthy, hs]
      · simp [pyTruthy, hs]
  · exact length_preprocess

/-- C8 amended witness: a fully-absent column under the forward fill
`some "A"` emits `"A"`. -/
theorem claim_C8_amended_witness :
    (isAbsentLabel "Unnamed: 1_level_0" = true ∧ isAbsentLabel "nan" = true) ∧
    preprocessStep (some "A") ("Unnamed: 1_level_0", "nan") = (some "A", "A") :=
  ⟨⟨by decide, by decide⟩,
    claim_C8_amended.1 (some "A") "Unnamed: 1_level_0" "nan" (by decide) (by decide)⟩

/-- A dataframe whose flattened header produced the same flat name twice. -/
def dupDF : PandasDF := ⟨[("C", ColData.numCol [1]), ("C", ColData.numCol [2])]⟩

/-- A dataframe with distinct column names, for contrast. -/
def okDF : PandasDF :=
  ⟨[("C", ColData.numCol [1, 2]), ("D", ColData.strCol [some "a", none, some "b"])]⟩

/-- C9 counterexample: the claim says the per-column summary sent to the
code-generation collaborator tolerates duplicate column names.  It does
not: `df[col]` with a duplicated name selects both columns, producing a
DataFrame, and the immediate `.dtype` access raises, so
`generate_df_summary` fails on any table with a duplicated column
name. -/
theorem claim_C9_counterexample :
    generate_df_summary dupDF
      = Except.error "AttributeError: 'DataFrame' object has no attribute 'dtype'" := by
  rfl

/-- C9 amended: `preprocess_multicolumn_header` itself performs no
deduplication — two columns composing to the same flat name are both
emitted unchanged, and the output always has one name per input column —
but `generate_df_summary` does not tolerate duplicate flat names: it
fails on a table with a duplicated column name (while succeeding on the
same data under distinct names). -/
theorem claim_C9_amended :
    preprocess_multicolumn_header [("A", "x"), ("A", "x")] = ["A_x", "A_x"] ∧
    (∀ cols : List (String × String),
      (preprocess_multicolumn_header cols).length = cols.length) ∧
    generate_df_summary dupDF
      = Except.error "AttributeError: 'DataFrame' object has no attribute 'dtype'" ∧
    (∃ s, generate_df_summary okDF = Except.ok s) := by
  refine ⟨by decide, length_preprocess, rfl, ?_⟩
  exact ⟨_, rfl⟩

/-- C10: `preprocess_multicolumn_header` classifies a label as absent
exactly by the test `"Unnamed" in label or label == "nan"` on the
`str(...)`-form.  Consequently a genuine label merely containing
`"Unnamed"` behaves exactly like the parser placeholder — dropped as a
group (forward-filled over) — and a label exactly `"nan"` is likewise
dropped (group) or suppressed (item) rather than used in the flat
name. -/
theorem claim_C10 :
    (∀ (cg : Option String) (g i : String), "Unnamed".toList <:+: g.toList →
      preprocessStep cg (g, i) = preprocessStep cg ("Unnamed: 0_level_0", i)) ∧
    (∀ (cg : Option String) (g : String),
      (preprocessStep cg (g, "nan")).2 = (preprocessStep cg (g, "Unnamed: 0_level_1")).2) ∧
    preprocess_multicolumn_header [("A", "x"), ("Unnamed Vendor", "y")] = ["A_x", "A_y"] ∧
    preprocess_multicolumn_header [("A", "x"), ("nan", "y")] = ["A_x", "A_y"] ∧
    preprocess_multicolumn_header [("B", "nan")] = ["B"] := by
  refine ⟨?_, ?_, by decide, by decide, by decide⟩
  · intro cg g i hg
    have h1 : isAbsentLabel g = true := by
      unfold isAbsentLabel
      rw [Bool.or_eq_true]
      exact Or.inl ((containsSub_correct _ _).mpr hg)
    simp [preprocessStep, finalGroupOf, h1,
      show isAbsentLabel "Unnamed: 0_level_0" = true from by decide]
  · intro cg g
    simp [preprocessStep, finalItemOf,
      show isAbsentLabel "nan" = true from by decide,
      show isAbsentLabel "Unnamed: 0_level_1" = true from by decide]

/-- C10 witness: a genuine label containing `"Unnamed"` behaves exactly
like the parser placeholder. -/
theorem claim_C10_witness :
    ("Unnamed".toList <:+: "Unnamed Vendor".toList) ∧
    preprocessStep (some "A") ("Unnamed Vendor", "y")
      = preprocessStep (some "A") ("Unnamed: 0_level_0", "y") :=
  ⟨by decide, claim_C10.1 (some "A") "Unnamed Vendor" "y" (by decide)⟩

end SeahQF
